import Mathlib

/-!
Verification development for the RosaServer scripting shim (`src/RosaServer/api.cpp`).

The entity proxy layer exposes the host's fixed-capacity, contiguous arrays of
game-state records.  A proxy's logical identity is recomputed on demand from its
raw address: `(address of record - address of array base) / record size`.
Addresses are modelled as natural numbers; a category is described by the byte
address of its array base, its element size, and its capacity.  The capacity
constants (`maxNumberOfItems`, ...) live in `engine.h`, which is owned by the
host build; they appear here as parameters.
-/

/-- `#define ERR_OUT_OF_RANGE "Index out of range"` / `errorOutOfRange` in api.cpp. -/
def errorOutOfRange : String := "Index out of range"

/-- Byte address of the record at slot `idx` of an array based at `base` with
element size `elemSize`: the C++ expression `&arr[idx]`. -/
def recordAddress (base elemSize idx : Nat) : Nat := base + elemSize * idx

/-- The shared shape of every `getIndex` method, e.g. `Item::getIndex`:
`((uintptr_t)this - (uintptr_t)Engine::items) / sizeof(*this)`.  It reads only
the proxy's own address; no identifier field of the record participates. -/
def getIndexOfRecord (base elemSize addr : Nat) : Nat := (addr - base) / elemSize

/-- `itemTypes::getByIndex`: `if (idx >= maxNumberOfItemTypes) throw
std::invalid_argument(errorOutOfRange); return &Engine::itemTypes[idx];` -/
def itemTypes_getByIndex (maxNumberOfItemTypes base elemSize idx : Nat) : Except String Nat :=
  if maxNumberOfItemTypes ≤ idx then Except.error errorOutOfRange
  else Except.ok (recordAddress base elemSize idx)

/-- `items::getByIndex`: `if (idx >= maxNumberOfItems) throw
std::invalid_argument(errorOutOfRange); return &Engine::items[idx];` -/
def items_getByIndex (maxNumberOfItems base elemSize idx : Nat) : Except String Nat :=
  if maxNumberOfItems ≤ idx then Except.error errorOutOfRange
  else Except.ok (recordAddress base elemSize idx)

/-- `vehicles::getByIndex`. -/
def vehicles_getByIndex (maxNumberOfVehicles base elemSize idx : Nat) : Except String Nat :=
  if maxNumberOfVehicles ≤ idx then Except.error errorOutOfRange
  else Except.ok (recordAddress base elemSize idx)

/-- `accounts::getByIndex`: `if (idx >= maxNumberOfAccounts) throw
std::invalid_argument(errorOutOfRange); return &Engine::accounts[idx];` -/
def accounts_getByIndex (maxNumberOfAccounts base elemSize idx : Nat) : Except String Nat :=
  if maxNumberOfAccounts ≤ idx then Except.error errorOutOfRange
  else Except.ok (recordAddress base elemSize idx)

/-- `players::getByIndex`. -/
def players_getByIndex (maxNumberOfPlayers base elemSize idx : Nat) : Except String Nat :=
  if maxNumberOfPlayers ≤ idx then Except.error errorOutOfRange
  else Except.ok (recordAddress base elemSize idx)

/-- `humans::getByIndex`. -/
def humans_getByIndex (maxNumberOfHumans base elemSize idx : Nat) : Except String Nat :=
  if maxNumberOfHumans ≤ idx then Except.error errorOutOfRange
  else Except.ok (recordAddress base elemSize idx)

/-- `rigidBodies::getByIndex`. -/
def rigidBodies_getByIndex (maxNumberOfRigidBodies base elemSize idx : Nat) : Except String Nat :=
  if maxNumberOfRigidBodies ≤ idx then Except.error errorOutOfRange
  else Except.ok (recordAddress base elemSize idx)

/-- `bonds::getByIndex`. -/
def bonds_getByIndex (maxNumberOfBonds base elemSize idx : Nat) : Except String Nat :=
  if maxNumberOfBonds ≤ idx then Except.error errorOutOfRange
  else Except.ok (recordAddress base elemSize idx)

/-- `streets::getByIndex`: `if (idx >= *Engine::numStreets) throw
std::invalid_argument(errorOutOfRange); return &Engine::streets[idx];` —
the bound is the live street count `*Engine::numStreets`, a runtime value,
not a compile-time capacity constant. -/
def streets_getByIndex (numStreets base elemSize idx : Nat) : Except String Nat :=
  if numStreets ≤ idx then Except.error errorOutOfRange
  else Except.ok (recordAddress base elemSize idx)

/-- `intersections::getByIndex`: bound is the live count
`*Engine::numStreetIntersections`. -/
def intersections_getByIndex (numStreetIntersections base elemSize idx : Nat) :
    Except String Nat :=
  if numStreetIntersections ≤ idx then Except.error errorOutOfRange
  else Except.ok (recordAddress base elemSize idx)

/-- C1: for every entity category (array base `base`, positive element size
`elemSize`, capacity `cap`) and every index `idx` within the capacity,
`getByIndex idx` returns the proxy at byte address `base + elemSize * idx`,
and `getIndex` on that proxy — computed purely from the proxy's address as
`(address - base) / elemSize`, with no identifier read from the record —
recovers exactly `idx`.  Stated for `items::getByIndex` / `Item::getIndex`,
the cited instance; every category's pair instantiates the same two
definitions with its own base, size and capacity. -/
theorem getByIndex_getIndex_identity (base elemSize cap idx : Nat)
    (hsz : 0 < elemSize) (hidx : idx < cap) :
    items_getByIndex cap base elemSize idx = Except.ok (recordAddress base elemSize idx) ∧
    getIndexOfRecord base elemSize (recordAddress base elemSize idx) = idx := by
  constructor
  · simp [items_getByIndex, Nat.not_le.mpr hidx]
  · simp [getIndexOfRecord, recordAddress, Nat.mul_div_cancel_left _ hsz]

/-- Witness for C1 at a concrete category layout: base 4096, element size 24,
capacity 1024, slot 7. -/
theorem getByIndex_getIndex_identity_witness :
    items_getByIndex 1024 4096 24 7 = Except.ok (recordAddress 4096 24 7) ∧
    getIndexOfRecord 4096 24 (recordAddress 4096 24 7) = 7 :=
  getByIndex_getIndex_identity 4096 24 1024 7 (by decide) (by decide)

/-- C4 counterexample: the out-of-range behaviour of `streets::getByIndex`
(and `intersections::getByIndex`) is not a function of any fixed capacity.
With the same index 0 and the same array layout, the call fails when the live
count `*Engine::numStreets` is 0 and succeeds when it is 1; a condition of the
form "error exactly when `idx ≥ fixed capacity`" cannot produce both
outcomes, so the claim as stated fails at index 0 of the street category. -/
theorem streets_getByIndex_live_count_counterexample :
    streets_getByIndex 0 0 1 0 = Except.error errorOutOfRange ∧
    streets_getByIndex 1 0 1 0 = Except.ok 0 ∧
    intersections_getByIndex 0 0 1 0 = Except.error errorOutOfRange ∧
    intersections_getByIndex 1 0 1 0 = Except.ok 0 := by
  refine ⟨rfl, ?_, rfl, ?_⟩ <;> rfl

/-- C4 (amended): for the statically-bounded categories — itemTypes, items,
vehicles, accounts, players, humans, rigidBodies, bonds — `getByIndex i`
succeeds exactly when `i` is below the category's fixed capacity and fails
with the invalid-argument condition "Index out of range" exactly when `i`
reaches it; the check reads nothing but the index (in particular no `active`
flag), so an inactive slot below the capacity is returned as a tombstoned
proxy, not an error.  For streets and intersections the code bounds the index
by the live counts `*Engine::numStreets` / `*Engine::numStreetIntersections`
instead of a fixed capacity, with the same exact-iff shape. -/
theorem getByIndex_out_of_range_contract (cap base elemSize idx : Nat) :
    ((itemTypes_getByIndex cap base elemSize idx).isOk = true ↔ idx < cap) ∧
    (itemTypes_getByIndex cap base elemSize idx = Except.error errorOutOfRange ↔ cap ≤ idx) ∧
    ((items_getByIndex cap base elemSize idx).isOk = true ↔ idx < cap) ∧
    (items_getByIndex cap base elemSize idx = Except.error errorOutOfRange ↔ cap ≤ idx) ∧
    ((vehicles_getByIndex cap base elemSize idx).isOk = true ↔ idx < cap) ∧
    (vehicles_getByIndex cap base elemSize idx = Except.error errorOutOfRange ↔ cap ≤ idx) ∧
    ((accounts_getByIndex cap base elemSize idx).isOk = true ↔ idx < cap) ∧
    (accounts_getByIndex cap base elemSize idx = Except.error errorOutOfRange ↔ cap ≤ idx) ∧
    ((players_getByIndex cap base elemSize idx).isOk = true ↔ idx < cap) ∧
    (players_getByIndex cap base elemSize idx = Except.error errorOutOfRange ↔ cap ≤ idx) ∧
    ((humans_getByIndex cap base elemSize idx).isOk = true ↔ idx < cap) ∧
    (humans_getByIndex cap base elemSize idx = Except.error errorOutOfRange ↔ cap ≤ idx) ∧
    ((rigidBodies_getByIndex cap base elemSize idx).isOk = true ↔ idx < cap) ∧
    (rigidBodies_getByIndex cap base elemSize idx = Except.error errorOutOfRange ↔ cap ≤ idx) ∧
    ((bonds_getByIndex cap base elemSize idx).isOk = true ↔ idx < cap) ∧
    (bonds_getByIndex cap base elemSize idx = Except.error errorOutOfRange ↔ cap ≤ idx) ∧
    ((streets_getByIndex cap base elemSize idx).isOk = true ↔ idx < cap) ∧
    (streets_getByIndex cap base elemSize idx = Except.error errorOutOfRange ↔ cap ≤ idx) ∧
    ((intersections_getByIndex cap base elemSize idx).isOk = true ↔ idx < cap) ∧
    (intersections_getByIndex cap base elemSize idx = Except.error errorOutOfRange ↔ cap ≤ idx) := by
  rcases Nat.lt_or_ge idx cap with h | h
  · have hn := Nat.not_le.mpr h
    refine ⟨?_, ?_, ?_, ?_, ?_, ?_, ?_, ?_, ?_, ?_, ?_, ?_, ?_, ?_, ?_, ?_, ?_, ?_, ?_, ?_⟩ <;>
      simp [itemTypes_getByIndex, items_getByIndex, vehicles_getByIndex, accounts_getByIndex,
        players_getByIndex, humans_getByIndex, rigidBodies_getByIndex, bonds_getByIndex,
        streets_getByIndex, intersections_getByIndex, hn, h, Except.isOk, Except.toBool]
  · have hn := Nat.not_lt.mpr h
    refine ⟨?_, ?_, ?_, ?_, ?_, ?_, ?_, ?_, ?_, ?_, ?_, ?_, ?_, ?_, ?_, ?_, ?_, ?_, ?_, ?_⟩ <;>
      simp [itemTypes_getByIndex, items_getByIndex, vehicles_getByIndex, accounts_getByIndex,
        players_getByIndex, humans_getByIndex, rigidBodies_getByIndex, bonds_getByIndex,
        streets_getByIndex, intersections_getByIndex, hn, h, Except.isOk, Except.toBool]

/-!
Relationship accessors.  A stored cross-reference is a raw small integer with
sentinel -1; the returned proxy is modelled by the index it points at
(`some i` for `&Engine::category[i]`, `none` for `nullptr`).
-/

/-- `Human::getPlayer`: `if (playerID == -1) return nullptr; return
&Engine::players[playerID];` -/
def Human_getPlayer (playerID : Int) : Option Int :=
  if playerID = -1 then none else some playerID

/-- `Human::getVehicle`: `if (vehicleID == -1) return nullptr; ...` -/
def Human_getVehicle (vehicleID : Int) : Option Int :=
  if vehicleID = -1 then none else some vehicleID

/-- `Player::getHuman`: `if (humanID == -1) return nullptr; ...` -/
def Player_getHuman (humanID : Int) : Option Int :=
  if humanID = -1 then none else some humanID

/-- `Item::getParentItem`: `return parentItemID == -1 ? nullptr :
&Engine::items[parentItemID];` -/
def Item_getParentItem (parentItemID : Int) : Option Int :=
  if parentItemID = -1 then none else some parentItemID

/-- `Item::getParentHuman`. -/
def Item_getParentHuman (parentHumanID : Int) : Option Int :=
  if parentHumanID = -1 then none else some parentHumanID

/-- `Item::getGrenadePrimer`: `return grenadePrimerID == -1 ? nullptr :
&Engine::players[grenadePrimerID];` -/
def Item_getGrenadePrimer (grenadePrimerID : Int) : Option Int :=
  if grenadePrimerID = -1 then none else some grenadePrimerID

/-- `Vehicle::getLastDriver`: `if (lastDriverPlayerID == -1) return nullptr;
return &Engine::players[lastDriverPlayerID];` -/
def Vehicle_getLastDriver (lastDriverPlayerID : Int) : Option Int :=
  if lastDriverPlayerID = -1 then none else some lastDriverPlayerID

/-- `Bullet::getPlayer`: `if (playerID == -1) return nullptr; ...` -/
def Bullet_getPlayer (playerID : Int) : Option Int :=
  if playerID = -1 then none else some playerID

/-- `Player::getAccount`: `return &Engine::accounts[accountID];` — the stored
`accountID` is indexed unconditionally; there is no sentinel test on this
accessor (its setter refuses nil instead: `Player::setAccount` throws
"Cannot set account to nil value"). -/
def Player_getAccount (accountID : Int) : Option Int :=
  some accountID

/-- C5 counterexample: `Player::getAccount` is a relationship accessor that
dereferences a stored small-integer cross-reference, yet with the sentinel
-1 stored it does not yield "no value": it returns the (out-of-bounds)
proxy `&Engine::accounts[-1]`.  The claim, which quantifies over every such
accessor, fails at `Player.getAccount` with `accountID = -1`. -/
theorem Player_getAccount_ignores_sentinel :
    Player_getAccount (-1) = some (-1) ∧ Player_getAccount (-1) ≠ none := by
  exact ⟨rfl, by decide⟩

/-- C5 (amended): the sentinel-checking relationship accessors —
`Human.getPlayer`, `Human.getVehicle`, `Player.getHuman`,
`Item.getParentItem`, `Item.getParentHuman`, `Item.getGrenadePrimer`,
`Vehicle.getLastDriver`, `Bullet.getPlayer` — yield no value exactly when the
stored reference is -1 and otherwise return the proxy at the stored index;
`Player.getAccount` alone performs no sentinel test and returns the proxy at
the stored `accountID` unconditionally, even when it is -1. -/
theorem sentinel_cross_reference_accessors (id : Int) :
    (Human_getPlayer id = none ↔ id = -1) ∧
    (Human_getPlayer id = some id ↔ id ≠ -1) ∧
    (Human_getVehicle id = none ↔ id = -1) ∧
    (Human_getVehicle id = some id ↔ id ≠ -1) ∧
    (Player_getHuman id = none ↔ id = -1) ∧
    (Player_getHuman id = some id ↔ id ≠ -1) ∧
    (Item_getParentItem id = none ↔ id = -1) ∧
    (Item_getParentItem id = some id ↔ id ≠ -1) ∧
    (Item_getParentHuman id = none ↔ id = -1) ∧
    (Item_getParentHuman id = some id ↔ id ≠ -1) ∧
    (Item_getGrenadePrimer id = none ↔ id = -1) ∧
    (Item_getGrenadePrimer id = some id ↔ id ≠ -1) ∧
    (Vehicle_getLastDriver id = none ↔ id = -1) ∧
    (Vehicle_getLastDriver id = some id ↔ id ≠ -1) ∧
    (Bullet_getPlayer id = none ↔ id = -1) ∧
    (Bullet_getPlayer id = some id ↔ id ≠ -1) ∧
    (Player_getAccount id = some id) := by
  by_cases h : id = -1 <;>
    simp [Human_getPlayer, Human_getVehicle, Player_getHuman, Item_getParentItem,
      Item_getParentHuman, Item_getGrenadePrimer, Vehicle_getLastDriver, Bullet_getPlayer,
      Player_getAccount, h]

/-!
The reset trampoline.  `hookAndReset` is the interception wrapper installed
over the host's `resetGame`.  A script call either fails (`sol` reports the
result invalid) or returns a value whose boolean coercion decides
suppression.  The observable behaviour is the ordered list of effects the
trampoline performs.
-/

/-- Outcome of one `sol::protected_function` invocation. -/
inductive LuaCallResult where
  | invalid
  | valid (truthy : Bool)
deriving DecidableEq, Fintype

/-- `noLuaCallError(res)`: `if (res->valid()) return true;` — otherwise the
error is printed and `false` is returned. -/
def noLuaCallError : LuaCallResult → Bool
  | LuaCallResult.invalid => false
  | LuaCallResult.valid _ => true

/-- Observable effects of one `hookAndReset` invocation, in order. -/
inductive ResetEvent where
  | luaCallResetGame
  | luaErrorLogged
  | hookRemoved
  | resetGameRun
  | hookReinstalled
  | luaCallPostResetGame
deriving DecidableEq

/-- The `subhook::ScopedHookRemove remove(&Hooks::resetGameHook);
Engine::resetGame();` block: the redirect is removed, the original runs,
and scope exit reinstalls the redirect. -/
def runOriginalResetGame : List ResetEvent :=
  [ResetEvent.hookRemoved, ResetEvent.resetGameRun, ResetEvent.hookReinstalled]

/-- `printLuaError` path inside `noLuaCallError`: an invalid result is
rendered to the operator-visible console log. -/
def luaErrorEvents (res : LuaCallResult) : List ResetEvent :=
  if noLuaCallError res then [] else [ResetEvent.luaErrorLogged]

/-- `hookAndReset(int reason)` (api.cpp:1718-1740).  `resetGameEnabled` is
`Hooks::enabledKeys[Hooks::EnableKeys::ResetGame]`; `hookRun` is
`(*lua)["hook"]["run"]`: `none` when that lookup is nil, otherwise the
outcomes of the two calls `func("ResetGame", reason)` and
`func("PostResetGame", reason)`.  The trace is the ordered list of effects:
pre-callback, error logging, scoped redirect removal around the original
`Engine::resetGame()`, post-callback. -/
def hookAndReset (resetGameEnabled : Bool)
    (hookRun : Option (LuaCallResult × LuaCallResult)) : List ResetEvent :=
  if resetGameEnabled then
    match hookRun with
    | some (preResult, postResult) =>
        let preTrace := ResetEvent.luaCallResetGame :: luaErrorEvents preResult
        let noParent :=
          match preResult with
          | LuaCallResult.invalid => false
          | LuaCallResult.valid b => b
        if noParent then preTrace
        else
          preTrace ++ runOriginalResetGame ++
            (ResetEvent.luaCallPostResetGame :: luaErrorEvents postResult)
    | none => runOriginalResetGame
  else runOriginalResetGame

/-- C3: the full sequencing contract of the reset trampoline.  With the event
enabled and a callback available: the "ResetGame" pre-callback runs first; a
truthy return suppresses both the original `resetGame` and the
"PostResetGame" post-callback; any other outcome (falsy return, or a failed
call, which is logged) runs the original exactly once inside a scoped
removal of its own redirect and then fires the post-callback.  With no
callback, or with the event disabled, the original runs exactly once with no
script invocation at all. -/
theorem hookAndReset_sequencing (b : Bool) (q : LuaCallResult)
    (f : Option (LuaCallResult × LuaCallResult)) :
    hookAndReset true (some (LuaCallResult.valid true, q)) = [ResetEvent.luaCallResetGame] ∧
    hookAndReset true (some (LuaCallResult.valid false, q)) =
      [ResetEvent.luaCallResetGame, ResetEvent.hookRemoved, ResetEvent.resetGameRun,
        ResetEvent.hookReinstalled, ResetEvent.luaCallPostResetGame] ++ luaErrorEvents q ∧
    hookAndReset true (some (LuaCallResult.invalid, q)) =
      [ResetEvent.luaCallResetGame, ResetEvent.luaErrorLogged, ResetEvent.hookRemoved,
        ResetEvent.resetGameRun, ResetEvent.hookReinstalled,
        ResetEvent.luaCallPostResetGame] ++ luaErrorEvents q ∧
    hookAndReset true none =
      [ResetEvent.hookRemoved, ResetEvent.resetGameRun, ResetEvent.hookReinstalled] ∧
    hookAndReset false f =
      [ResetEvent.hookRemoved, ResetEvent.resetGameRun, ResetEvent.hookReinstalled] ∧
    (hookAndReset b f).count ResetEvent.resetGameRun =
      (if b && (match f with
                | some (LuaCallResult.valid true, _) => true
                | _ => false) then 0 else 1) := by
  revert b q f
  decide

/-- C6: when the pre-callback invocation itself fails (`noLuaCallError`
returns false), the failure is logged to the operator console and the
trampoline proceeds as if the callback had declined to suppress: the
original `resetGame` still executes exactly once and the post-callback still
fires — the error does not escape the trampoline. -/
theorem hookAndReset_callback_error_conservative (q : LuaCallResult) :
    noLuaCallError LuaCallResult.invalid = false ∧
    ResetEvent.luaErrorLogged ∈ hookAndReset true (some (LuaCallResult.invalid, q)) ∧
    (hookAndReset true (some (LuaCallResult.invalid, q))).count ResetEvent.resetGameRun = 1 ∧
    (hookAndReset true (some (LuaCallResult.invalid, q))).count
      ResetEvent.luaCallPostResetGame = 1 := by
  revert q
  decide

/-!
HTTP boundary.  An `httplib::Result` is truthy exactly when a network
exchange completed (possibly with an error HTTP status); a network failure
makes it falsy.  `none` models a falsy result.
-/

/-- A completed HTTP exchange: the fields this code reads off a truthy
`httplib::Result` (`res->status`, `res->body`, `res->headers`). -/
structure HTTPResult where
  status : Int
  body : String
  headers : List (String × String)

/-- The Lua table built by `handleSyncHTTPResponse` on a completed exchange:
`table["status"]`, `table["body"]`, `table["headers"]`. -/
structure SyncResponseTable where
  status : Int
  body : String
  headers : List (String × String)
deriving DecidableEq

/-- `handleSyncHTTPResponse(httplib::Result&, sol::this_state)`: a truthy
result yields a table populated with status, body and headers; a falsy one
yields `sol::lua_nil`. -/
def handleSyncHTTPResponse (res : Option HTTPResult) : Option SyncResponseTable :=
  match res with
  | some r => some { status := r.status, body := r.body, headers := r.headers }
  | none => none

/-- The `LuaHTTPResponse` record staged on the response queue (declared in
api.h, outside src/).  Modelled from the spec: on failure the entry carries
`success = false` "with no body/status populated", so the fields beyond
`success` that the failure branch of `handleHTTPResponse` leaves
value-initialized are modelled as `none`.  `callback` is the opaque script
callback handle carried from the request. -/
structure LuaHTTPResponse where
  callback : Nat
  success : Bool
  status : Option Int := none
  body : Option String := none
  headers : Option (List (String × String)) := none
deriving DecidableEq

/-- `handleHTTPResponse(LuaHTTPRequest&, httplib::Result&)`: a truthy result
pushes `{req.callback, true, res->status, res->body, res->headers}` onto the
response queue; a falsy result pushes `{req.callback, false}`.  Both
branches only append under the response-queue mutex; nothing is thrown. -/
def handleHTTPResponse (reqCallback : Nat) (res : Option HTTPResult)
    (responseQueue : List LuaHTTPResponse) : List LuaHTTPResponse :=
  match res with
  | some r =>
      responseQueue ++
        [{ callback := reqCallback
           success := true
           status := some r.status
           body := some r.body
           headers := some r.headers }]
  | none =>
      responseQueue ++ [{ callback := reqCallback, success := false }]

/-- C7: a network failure is reported as data, never as an exception.  The
synchronous forms map a failed exchange to the nil value and a completed
exchange — regardless of its HTTP status — to a table populated with status,
body and headers.  The asynchronous worker path enqueues, for a failure, an
entry with `success = false` and none of status, body or headers populated,
and for a completed exchange an entry with `success = true` and all three
populated. -/
theorem http_failure_reported_as_data (r : HTTPResult) (cb : Nat)
    (q : List LuaHTTPResponse) :
    handleSyncHTTPResponse none = none ∧
    handleSyncHTTPResponse (some r) =
      some { status := r.status, body := r.body, headers := r.headers } ∧
    handleHTTPResponse cb none q =
      q ++ [{ callback := cb, success := false, status := none, body := none, headers := none }] ∧
    handleHTTPResponse cb (some r) q =
      q ++
        [{ callback := cb
           success := true
           status := some r.status
           body := some r.body
           headers := some r.headers }] :=
  ⟨rfl, rfl, rfl, rfl⟩

/-!
Script-local side-storage for items.  `itemDataTables` maps a slot index to
the optional Lua table attached to the slot's occupant (`nullptr` = `none`).
Table contents are opaque; a fresh table is empty.
-/

/-- Contents of one attached Lua data table. -/
abbrev LuaTable := List (String × Int)

/-- `Item::getDataTable`: returns the existing container for the slot,
allocating a fresh empty one on first access.  Result: the observed table
and the updated side-storage array. -/
def Item_getDataTable (itemDataTables : Nat → Option LuaTable) (index : Nat) :
    LuaTable × (Nat → Option LuaTable) :=
  match itemDataTables index with
  | some t => (t, itemDataTables)
  | none => ([], fun i => if i = index then some [] else itemDataTables i)

/-- `Item::remove`: `Engine::deleteItem(index)` (under a scoped removal of
the delete hook) followed, in the same operation, by deleting and nulling
`itemDataTables[index]`. -/
def Item_remove (index : Nat) (itemDataTables : Nat → Option LuaTable) :
    Nat → Option LuaTable :=
  fun i => if i = index then none else itemDataTables i

/-- `items::createVel` (also the body of `items::create`, which delegates to
it): calls `Engine::createItem`, and when the returned id is not -1 and
`itemDataTables[id]` is non-null, deletes and nulls it before handing back
the proxy.  `createItemResult` is the id the host returned.  Result: the
returned proxy's slot (if any) and the updated side-storage array. -/
def items_createVel (createItemResult : Int) (itemDataTables : Nat → Option LuaTable) :
    Option Nat × (Nat → Option LuaTable) :=
  let id := createItemResult
  let tables :=
    if id ≠ -1 ∧ (itemDataTables id.toNat).isSome then
      fun i => if i = id.toNat then none else itemDataTables i
    else itemDataTables
  (if id = -1 then none else some id.toNat, tables)

/-- `items::createRope`: `int id = Engine::createRope(pos, rot); return id ==
-1 ? nullptr : &Engine::items[id];` — the proxy is handed back with no
touch of `itemDataTables`. -/
def items_createRope (createRopeResult : Int) (itemDataTables : Nat → Option LuaTable) :
    Option Nat × (Nat → Option LuaTable) :=
  (if createRopeResult = -1 then none else some createRopeResult.toNat, itemDataTables)

/-- A side-storage array in which slot 2 still holds the previous occupant's
table (every other slot is clear). -/
def staleItemTables : Nat → Option LuaTable :=
  fun i => if i = 2 then some [("stale", 1)] else none

/-- C2, failing path: `items::createRope`, alone among the entity-creation
operations of the data-table categories, does not clear the side-storage
entry of the slot the host returns.  With the host recycling slot 2 whose
previous occupant left a populated table, `createRope` hands back the slot-2
proxy while `itemDataTables[2]` still holds the stale table, and
`Item::getDataTable` on the new rope observes the previous occupant's data;
`items::createVel` on the very same state clears the slot, as the claim
describes. -/
theorem items_createRope_retains_stale_dataTable :
    (items_createRope 2 staleItemTables).1 = some 2 ∧
    (items_createRope 2 staleItemTables).2 2 = some [("stale", 1)] ∧
    (Item_getDataTable (items_createRope 2 staleItemTables).2 2).1 = [("stale", 1)] ∧
    (items_createVel 2 staleItemTables).2 2 = none ∧
    Item_remove 2 staleItemTables 2 = none := by
  refine ⟨rfl, rfl, rfl, ?_, rfl⟩
  simp [items_createVel, staleItemTables]

/-!
`humans::create`.  The host binary owns `Engine::createHuman` /
`Engine::deleteHuman`; they are opaque operations on game state supplied as
parameters.  The shim-visible game state carries the two cross-reference
fields the claim is about (`players[i].humanID`, `humans[i].playerID`) and
the humans side-storage array.  Position and rotation are forwarded to the
host untouched, so their type is a parameter.
-/

/-- Calls made into the host binary, in order. -/
inductive HostCall where
  | deleteHuman (humanID : Int)
  | createHuman (playerID : Nat)
deriving DecidableEq

/-- Shim-visible game state for the human/player categories. -/
structure GameState where
  playerHumanID : Nat → Int
  humanPlayerID : Nat → Int
  humanDataTables : Nat → Option LuaTable

/-- The two host entry points `humans::create` uses, as opaque state
transformers.  `createHuman` returns the allocated slot id or -1. -/
structure EngineHost (α β : Type) where
  deleteHuman : GameState → Int → GameState
  createHuman : GameState → α → β → Nat → GameState × Int

/-- `humans::create(Vector* pos, RotMatrix* rot, Player* ply)`
(api.cpp:2199-2221): captures `ply->getIndex()`; if `ply->humanID != -1`
deletes that human (under a scoped removal of the delete hook); calls
`Engine::createHuman(pos, rot, playerID)` (under a scoped removal of the
create hook); on -1 returns nullptr; otherwise clears any stale
`humanDataTables[humanID]`, sets `man->playerID = playerID` and
`ply->humanID = humanID`, and returns the new human.  Result: the returned
human id (if any), the final state, and the ordered host-call trace. -/
def humans_create {α β : Type} (host : EngineHost α β) (s : GameState)
    (pos : α) (rot : β) (plyIndex : Nat) :
    Option Int × GameState × List HostCall :=
  let playerID := plyIndex
  let s1 :=
    if s.playerHumanID plyIndex ≠ -1 then
      host.deleteHuman s (s.playerHumanID plyIndex)
    else s
  let calls1 : List HostCall :=
    if s.playerHumanID plyIndex ≠ -1 then
      [HostCall.deleteHuman (s.playerHumanID plyIndex)]
    else []
  let created := host.createHuman s1 pos rot playerID
  let s2 := created.1
  let humanID := created.2
  let calls := calls1 ++ [HostCall.createHuman playerID]
  if humanID = -1 then (none, s2, calls)
  else
    let s3 : GameState :=
      { s2 with humanDataTables := fun i => if i = humanID.toNat then none
          else s2.humanDataTables i }
    let s4 : GameState :=
      { s3 with
          humanPlayerID := fun i => if i = humanID.toNat then (playerID : Int)
            else s3.humanPlayerID i
          playerHumanID := fun i => if i = plyIndex then humanID
            else s3.playerHumanID i }
    (some humanID, s4, calls)

/-- C9: whenever `humans::create` succeeds (returns a human), the player and
human records reference each other consistently: the new human's `playerID`
is the player's index and the player's `humanID` is the new human's id; the
host-call trace shows that when the player already referenced a human
(`ply->humanID != -1`) that human was deleted before the new one was
created, and that creation is requested exactly once; and the recycled
slot's side-storage entry is cleared before the proxy is handed back. -/
theorem humans_create_mutual_consistency {α β : Type} (host : EngineHost α β)
    (s : GameState) (pos : α) (rot : β) (plyIndex : Nat) (hid : Int)
    (h : (humans_create host s pos rot plyIndex).1 = some hid) :
    (humans_create host s pos rot plyIndex).2.1.humanPlayerID hid.toNat = (plyIndex : Int) ∧
    (humans_create host s pos rot plyIndex).2.1.playerHumanID plyIndex = hid ∧
    (humans_create host s pos rot plyIndex).2.1.humanDataTables hid.toNat = none ∧
    (humans_create host s pos rot plyIndex).2.2 =
      (if s.playerHumanID plyIndex ≠ -1 then
        [HostCall.deleteHuman (s.playerHumanID plyIndex)]
      else []) ++ [HostCall.createHuman plyIndex] ∧
    hid ≠ -1 := by
  simp only [humans_create] at h ⊢
  split_ifs at h ⊢ <;>
    first
      | exact Option.noConfusion h
      | (simp only [Option.some.injEq] at h
         subst h
         simp_all)

/-- A concrete host for exercising `humans::create`: deletion leaves the
state unchanged and creation always allocates slot 5. -/
def exampleHost : EngineHost Unit Unit :=
  { deleteHuman := fun s _ => s
    createHuman := fun s _ _ _ => (s, 5) }

/-- A concrete game state: no player references a human, no human references
a player, no side-storage allocated. -/
def exampleState : GameState :=
  { playerHumanID := fun _ => -1
    humanPlayerID := fun _ => -1
    humanDataTables := fun _ => none }

/-- Witness for C9: creating a human for player 2 in `exampleState` returns
human 5, and afterwards human 5 references player 2 and player 2 references
human 5. -/
theorem humans_create_mutual_consistency_witness :
    (humans_create exampleHost exampleState () () 2).2.1.humanPlayerID (5 : Int).toNat =
      ((2 : Nat) : Int) ∧
    (humans_create exampleHost exampleState () () 2).2.1.playerHumanID 2 = (5 : Int) ∧
    (humans_create exampleHost exampleState () () 2).2.1.humanDataTables (5 : Int).toNat =
      none ∧
    (humans_create exampleHost exampleState () () 2).2.2 =
      (if exampleState.playerHumanID 2 ≠ -1 then
        [HostCall.deleteHuman (exampleState.playerHumanID 2)]
      else []) ++ [HostCall.createHuman 2] ∧
    (5 : Int) ≠ -1 :=
  humans_create_mutual_consistency exampleHost exampleState () () 2 5 (by decide)

/-!
The HTTP worker thread and the reset lock.  `HTTPThread` holds
`stateResetMutex` (a `std::lock_guard` at the top of each iteration) across
the whole of: dequeuing one request, performing its network call, and
enqueuing its response.  Requests and responses are tagged with the epoch of
the scripting environment that produced them; the epoch increments on every
environment reset.  The resetter side lives outside src/ and is modelled
from the spec (see `SysStep.resetAcquire` / `SysStep.resetPerform`).
-/

/-- A queued outbound request, abstracted to the environment epoch that
enqueued it. -/
structure WorkerRequest where
  epoch : Nat
deriving DecidableEq

/-- A staged response, abstracted to the epoch of the request it answers. -/
structure WorkerResponse where
  epoch : Nat
deriving DecidableEq

/-- Who currently holds `stateResetMutex`. -/
inductive LockHolder where
  | worker
  | resetter
deriving DecidableEq

/-- Program counter of the worker thread inside one iteration of the inner
`while (true)` loop of `HTTPThread`. -/
inductive WorkerPhase where
  | idle
  | locked
  | processing (req : WorkerRequest)
deriving DecidableEq

/-- Shared system state: current environment epoch, `stateResetMutex`, the
two queues, and the worker's position. -/
structure SysState where
  epoch : Nat
  lock : Option LockHolder
  requestQueue : List WorkerRequest
  responseQueue : List WorkerResponse
  worker : WorkerPhase
deriving DecidableEq

/-- Interleaved small-step semantics of the system.

Worker steps follow `HTTPThread` (api.cpp:233-275): the iteration first
constructs `std::lock_guard<std::mutex> guard(stateResetMutex)`
(`workerAcquire`); holding it, it either finds the request queue empty and
breaks, releasing the guard (`workerEmptyRelease`), or pops one request
(`workerDequeue`), performs the network exchange and stages the response,
after which the guard scope ends (`workerComplete`).  The response carries
the epoch of the request it answers.  `enqueueRequest` is
`Lua::http::get/post` on the main thread pushing a request belonging to the
current environment; it takes only the request-queue mutex, not the reset
lock.

`resetAcquire` / `resetPerform` — Modelled from the spec: the reset path
(outside src/) "must acquire this same lock before tearing down and
rebuilding the scripting environment"; tearing down and rebuilding discards
the old environment's queues and starts a new epoch. -/
inductive SysStep : SysState → SysState → Prop where
  | enqueueRequest (s : SysState) :
      SysStep s { s with requestQueue := s.requestQueue ++ [{ epoch := s.epoch }] }
  | workerAcquire (s : SysState) (hl : s.lock = none) (hw : s.worker = WorkerPhase.idle) :
      SysStep s { s with lock := some LockHolder.worker, worker := WorkerPhase.locked }
  | workerEmptyRelease (s : SysState) (hw : s.worker = WorkerPhase.locked)
      (hq : s.requestQueue = []) :
      SysStep s { s with lock := none, worker := WorkerPhase.idle }
  | workerDequeue (s : SysState) (req : WorkerRequest) (rest : List WorkerRequest)
      (hw : s.worker = WorkerPhase.locked) (hq : s.requestQueue = req :: rest) :
      SysStep s { s with requestQueue := rest, worker := WorkerPhase.processing req }
  | workerComplete (s : SysState) (req : WorkerRequest)
      (hw : s.worker = WorkerPhase.processing req) :
      SysStep s { s with responseQueue := s.responseQueue ++ [{ epoch := req.epoch }], worker := WorkerPhase.idle, lock := none }
  | resetAcquire (s : SysState) (hl : s.lock = none) :
      SysStep s { s with lock := some LockHolder.resetter }
  | resetPerform (s : SysState) (hl : s.lock = some LockHolder.resetter) :
      SysStep s { s with epoch := s.epoch + 1, requestQueue := [], responseQueue := [], lock := none }

/-- Boot state: epoch 0, lock free, both queues empty, worker idle. -/
def initState : SysState :=
  { epoch := 0
    lock := none
    requestQueue := []
    responseQueue := []
    worker := WorkerPhase.idle }

/-- Inductive invariant: queue entries always belong to the current
environment, and a worker that is mid-iteration holds the reset lock with a
request of the current environment. -/
def SysInv (s : SysState) : Prop :=
  (∀ r ∈ s.requestQueue, r.epoch = s.epoch) ∧
  (∀ p ∈ s.responseQueue, p.epoch = s.epoch) ∧
  (∀ req, s.worker = WorkerPhase.processing req →
    req.epoch = s.epoch ∧ s.lock = some LockHolder.worker) ∧
  (s.worker = WorkerPhase.locked → s.lock = some LockHolder.worker)

lemma sysInv_init : SysInv initState := by
  refine ⟨?_, ?_, ?_, ?_⟩ <;> simp [initState, SysInv]

lemma sysInv_step {s s' : SysState} (hs : SysInv s) (h : SysStep s s') : SysInv s' := by
  obtain ⟨hreq, hresp, hproc, hlock⟩ := hs
  cases h with
  | enqueueRequest =>
      refine ⟨?_, hresp, hproc, hlock⟩
      intro r hr
      rcases List.mem_append.mp hr with hr | hr
      · exact hreq r hr
      · simp at hr
        subst hr
        rfl
  | workerAcquire hl hw =>
      refine ⟨hreq, hresp, ?_, ?_⟩
      · intro req hp
        simp at hp
      · intro _
        rfl
  | workerEmptyRelease hw hq =>
      refine ⟨hreq, hresp, ?_, ?_⟩
      · intro req hp
        simp at hp
      · intro hc
        simp at hc
  | workerDequeue req rest hw hq =>
      refine ⟨?_, hresp, ?_, ?_⟩
      · intro r hr
        exact hreq r (by simp [hq, hr])
      · intro req' hp
        simp at hp
        subst hp
        exact ⟨hreq req (by simp [hq]), hlock hw⟩
      · intro hc
        simp at hc
  | workerComplete req hw =>
      refine ⟨hreq, ?_, ?_, ?_⟩
      · intro p hp
        rcases List.mem_append.mp hp with hp | hp
        · exact hresp p hp
        · simp at hp
          subst hp
          exact (hproc req hw).1
      · intro req' hp
        simp at hp
      · intro hc
        simp at hc
  | resetAcquire hl =>
      refine ⟨hreq, hresp, ?_, ?_⟩
      · intro req hp
        have := (hproc req hp).2
        rw [hl] at this
        exact Option.noConfusion this
      · intro hc
        have := hlock hc
        rw [hl] at this
        exact Option.noConfusion this
  | resetPerform hl =>
      refine ⟨?_, ?_, ?_, ?_⟩
      · intro r hr
        simp at hr
      · intro p hp
        simp at hp
      · intro req hp
        have := (hproc req hp).2
        rw [hl] at this
        simp at this
      · intro hc
        have := hlock hc
        rw [hl] at this
        simp at this

/-- C8: in every reachable system state, every entry of the response queue
belongs to the current environment epoch.  Because `HTTPThread` holds
`stateResetMutex` across dequeue + network call + response enqueue, and the
reset path acquires the same lock before tearing the environment down, no
request whose network I/O would complete after a reset has begun can ever
deposit a response into the new environment's response queue: a reset cannot
begin while the worker is mid-exchange, and a reset empties both queues of
the old environment. -/
theorem reset_isolation_responseQueue (s : SysState)
    (h : Relation.ReflTransGen SysStep initState s) :
    ∀ p ∈ s.responseQueue, p.epoch = s.epoch := by
  have hinv : SysInv s := by
    induction h with
    | refl => exact sysInv_init
    | tail hst hstep ih => exact sysInv_step ih hstep
  exact hinv.2.1

/-- A state reached by: main enqueues a request (epoch 0), worker acquires
the reset lock, dequeues it, performs the exchange and stages the response,
releasing the lock. -/
def exampleRunState : SysState :=
  { epoch := 0
    lock := none
    requestQueue := []
    responseQueue := [{ epoch := 0 }]
    worker := WorkerPhase.idle }

lemma exampleRunState_reachable :
    Relation.ReflTransGen SysStep initState exampleRunState := by
  have s1 : SysStep initState
      { epoch := 0, lock := none, requestQueue := [{ epoch := 0 }], responseQueue := [],
        worker := WorkerPhase.idle } := SysStep.enqueueRequest initState
  have s2 : SysStep
      { epoch := 0, lock := none, requestQueue := [{ epoch := 0 }], responseQueue := [],
        worker := WorkerPhase.idle }
      { epoch := 0, lock := some LockHolder.worker, requestQueue := [{ epoch := 0 }],
        responseQueue := [], worker := WorkerPhase.locked } :=
    SysStep.workerAcquire _ rfl rfl
  have s3 : SysStep
      { epoch := 0, lock := some LockHolder.worker, requestQueue := [{ epoch := 0 }],
        responseQueue := [], worker := WorkerPhase.locked }
      { epoch := 0, lock := some LockHolder.worker, requestQueue := [],
        responseQueue := [], worker := WorkerPhase.processing { epoch := 0 } } :=
    SysStep.workerDequeue _ { epoch := 0 } [] rfl rfl
  have s4 : SysStep
      { epoch := 0, lock := some LockHolder.worker, requestQueue := [],
        responseQueue := [], worker := WorkerPhase.processing { epoch := 0 } }
      exampleRunState :=
    SysStep.workerComplete _ { epoch := 0 } rfl
  exact Relation.ReflTransGen.tail
    (Relation.ReflTransGen.tail (Relation.ReflTransGen.tail
      (Relation.ReflTransGen.single s1) s2) s3) s4

/-- Witness for C8: in the concrete reachable state `exampleRunState` the
staged response carries the current epoch. -/
theorem reset_isolation_responseQueue_witness :
    ({ epoch := 0 } : WorkerResponse).epoch = exampleRunState.epoch :=
  reset_isolation_responseQueue exampleRunState exampleRunState_reachable
    { epoch := 0 } (by simp [exampleRunState])

/-!
Account scans.  `accounts::getCount`, `accounts::getAll` and
`accounts::getByPhone` walk the account array from slot 0 with no bound,
breaking at the first slot whose `subRosaID` is zero (`getByPhone` also
returns early on a phone match).  The account array is modelled as total
functions on slot numbers — memory past the array's fixed capacity exists
but reading it is out of bounds.  The C++ loops carry no fuel; `fuel` below
bounds how many iterations are inspected, so "`isSome` at fuel `cap`"
states that the loop terminates within the array, and membership of `cap`
in the read trace states that the loop dereferences one slot past the end.
-/

/-- `accounts::getCount`: `while (true) { acc = &accounts[count]; if
(!acc->subRosaID) break; count++; }` — result is the break position. -/
def accounts_getCountAux (subRosaID : Nat → Int) (count : Nat) : Nat → Option Nat
  | 0 => none
  | fuel + 1 =>
      if subRosaID count = 0 then some count
      else accounts_getCountAux subRosaID (count + 1) fuel

/-- `accounts::getAll`: `for (i = 0;; i++) { acc = &accounts[i]; if
(!acc->subRosaID) break; arr.add(acc); }` — result is the collected slots. -/
def accounts_getAllAux (subRosaID : Nat → Int) (i : Nat) : Nat → Option (List Nat)
  | 0 => none
  | fuel + 1 =>
      if subRosaID i = 0 then some []
      else (accounts_getAllAux subRosaID (i + 1) fuel).map (fun l => i :: l)

/-- The slots `accounts::getCount` / `accounts::getAll` dereference: each
iteration reads `accounts[i].subRosaID` before deciding to stop. -/
def accounts_scanReads (subRosaID : Nat → Int) (i : Nat) : Nat → List Nat
  | 0 => []
  | fuel + 1 =>
      i :: (if subRosaID i = 0 then [] else accounts_scanReads subRosaID (i + 1) fuel)

/-- `accounts::getByPhone`: `for (i = 0;; i++) { acc = &accounts[i]; if
(!acc->subRosaID) break; if (acc->phoneNumber == phone) return acc; }` —
`some none` is the `return nullptr` after the break, `some (some i)` the
early return of `&accounts[i]`. -/
def accounts_getByPhoneAux (subRosaID phoneNumber : Nat → Int) (phone : Int) (i : Nat) :
    Nat → Option (Option Nat)
  | 0 => none
  | fuel + 1 =>
      if subRosaID i = 0 then some none
      else if phoneNumber i = phone then some (some i)
      else accounts_getByPhoneAux subRosaID phoneNumber phone (i + 1) fuel

/-- The slots `accounts::getByPhone` dereferences. -/
def accounts_getByPhoneReads (subRosaID phoneNumber : Nat → Int) (phone : Int) (i : Nat) :
    Nat → List Nat
  | 0 => []
  | fuel + 1 =>
      i :: (if subRosaID i = 0 then []
        else if phoneNumber i = phone then []
        else accounts_getByPhoneReads subRosaID phoneNumber phone (i + 1) fuel)

lemma accountsScan_terminates (f : Nat → Int) :
    ∀ (fuel i j : Nat), i ≤ j → j < i + fuel → f j = 0 →
      (accounts_getCountAux f i fuel).isSome = true ∧
      (accounts_getAllAux f i fuel).isSome = true ∧
      ∀ k ∈ accounts_scanReads f i fuel, k ≤ j := by
  intro fuel
  induction fuel with
  | zero =>
      intro i j hij hlt hz
      omega
  | succ fuel ih =>
      intro i j hij hlt hz
      by_cases hzi : f i = 0
      · refine ⟨?_, ?_, ?_⟩
        · simp [accounts_getCountAux, hzi]
        · simp [accounts_getAllAux, hzi]
        · intro k hk
          simp [accounts_scanReads, hzi] at hk
          omega
      · have hne : i ≠ j := fun h => hzi (h ▸ hz)
        obtain ⟨h1, h2, h3⟩ := ih (i + 1) j (by omega) (by omega) hz
        refine ⟨?_, ?_, ?_⟩
        · simpa [accounts_getCountAux, hzi] using h1
        · obtain ⟨l, hl⟩ := Option.isSome_iff_exists.mp h2
          simp [accounts_getAllAux, hzi, hl]
        · intro k hk
          simp only [accounts_scanReads, hzi, if_neg, List.mem_cons] at hk
          rcases hk with hk | hk
          · omega
          · exact h3 k hk

lemma accountsScan_reads_past_end (f : Nat → Int) :
    ∀ (fuel i : Nat), (∀ k, i ≤ k → k < i + fuel → f k ≠ 0) →
      (i + fuel) ∈ accounts_scanReads f i (fuel + 1) := by
  intro fuel
  induction fuel with
  | zero =>
      intro i h
      simp [accounts_scanReads]
  | succ fuel ih =>
      intro i h
      have hzi : f i ≠ 0 := h i (Nat.le_refl i) (by omega)
      have := ih (i + 1) (fun k hk hk' => h k (by omega) (by omega))
      simp only [accounts_scanReads, hzi, if_neg, List.mem_cons]
      right
      have hrw : i + (fuel + 1) = (i + 1) + fuel := by omega
      rw [hrw]
      exact this

lemma accountsGetByPhone_terminates (f p : Nat → Int) (phone : Int) :
    ∀ (fuel i j : Nat), i ≤ j → j < i + fuel → (f j = 0 ∨ p j = phone) →
      (accounts_getByPhoneAux f p phone i fuel).isSome = true ∧
      ∀ k ∈ accounts_getByPhoneReads f p phone i fuel, k ≤ j := by
  intro fuel
  induction fuel with
  | zero =>
      intro i j hij hlt hz
      omega
  | succ fuel ih =>
      intro i j hij hlt hz
      by_cases hzi : f i = 0
      · refine ⟨?_, ?_⟩
        · simp [accounts_getByPhoneAux, hzi]
        · intro k hk
          simp [accounts_getByPhoneReads, hzi] at hk
          omega
      · by_cases hpi : p i = phone
        · refine ⟨?_, ?_⟩
          · simp [accounts_getByPhoneAux, hzi, hpi]
          · intro k hk
            simp [accounts_getByPhoneReads, hzi, hpi] at hk
            omega
        · have hne : i ≠ j := by
            intro h
            subst h
            rcases hz with hz | hz
            · exact hzi hz
            · exact hpi hz
          obtain ⟨h1, h2⟩ := ih (i + 1) j (by omega) (by omega) hz
          refine ⟨?_, ?_⟩
          · simpa [accounts_getByPhoneAux, hzi, hpi] using h1
          · intro k hk
            simp only [accounts_getByPhoneReads, hzi, hpi, if_neg, List.mem_cons] at hk
            rcases hk with hk | hk
            · omega
            · exact h2 k hk

lemma accountsGetByPhone_reads_past_end (f p : Nat → Int) (phone : Int) :
    ∀ (fuel i : Nat), (∀ k, i ≤ k → k < i + fuel → f k ≠ 0 ∧ p k ≠ phone) →
      (i + fuel) ∈ accounts_getByPhoneReads f p phone i (fuel + 1) := by
  intro fuel
  induction fuel with
  | zero =>
      intro i h
      simp [accounts_getByPhoneReads]
  | succ fuel ih =>
      intro i h
      obtain ⟨hzi, hpi⟩ := h i (Nat.le_refl i) (by omega)
      have := ih (i + 1) (fun k hk hk' => h k (by omega) (by omega))
      simp only [accounts_getByPhoneReads, hzi, hpi, if_neg, List.mem_cons]
      right
      have hrw : i + (fuel + 1) = (i + 1) + fuel := by omega
      rw [hrw]
      exact this

/-- C10 counterexample: with account capacity 1, `subRosaID` identically 1
(so no slot below the capacity has `subRosaID` zero) and slot 0 carrying
phone number 7, `accounts::getByPhone(7)` nevertheless terminates on its
first iteration — it returns at the phone match, not at a zero `subRosaID`
slot — and its only array access is slot 0, in bounds.  So the three scans
do not stop "only at the first slot whose subRosaID field is zero", and
in-bounds termination of `getByPhone` does not require the claimed
precondition. -/
theorem accounts_getByPhone_phone_match_counterexample :
    accounts_getByPhoneAux (fun _ => 1) (fun _ => 7) 7 0 1 = some (some 0) ∧
    accounts_getByPhoneReads (fun _ => 1) (fun _ => 7) 7 0 1 = [0] ∧
    ((fun _ => (1 : Int)) 0 : Int) ≠ 0 := by
  refine ⟨?_, ?_, ?_⟩ <;> decide

/-- C10 (amended): `accounts::getCount` and `accounts::getAll` scan upward
from slot 0 with no capacity bound and stop only at the first slot whose
`subRosaID` is zero, so they terminate with all array accesses in bounds
exactly under the precondition that some slot below the fixed account
capacity has `subRosaID` zero; `accounts::getByPhone` additionally returns
early at the first matching `phoneNumber`, so its precondition weakens to
"some slot below the capacity has `subRosaID` zero or a matching phone".
Without the respective precondition each scan dereferences
`accounts[capacity]`, one past the array, within `capacity + 1` iterations.
`accounts::getByIndex`, by contrast, checks the fixed capacity explicitly
and never reads beyond it. -/
theorem accounts_unbounded_scan_contract (f p : Nat → Int) (phone : Int) (cap : Nat) :
    ((∃ j, j < cap ∧ f j = 0) →
      (accounts_getCountAux f 0 cap).isSome = true ∧
      (accounts_getAllAux f 0 cap).isSome = true ∧
      ∀ k ∈ accounts_scanReads f 0 cap, k < cap) ∧
    ((∀ k, k < cap → f k ≠ 0) → cap ∈ accounts_scanReads f 0 (cap + 1)) ∧
    ((∃ j, j < cap ∧ (f j = 0 ∨ p j = phone)) →
      (accounts_getByPhoneAux f p phone 0 cap).isSome = true ∧
      ∀ k ∈ accounts_getByPhoneReads f p phone 0 cap, k < cap) ∧
    ((∀ k, k < cap → f k ≠ 0 ∧ p k ≠ phone) →
      cap ∈ accounts_getByPhoneReads f p phone 0 (cap + 1)) ∧
    (∀ base elemSize idx, (accounts_getByIndex cap base elemSize idx).isOk = true ↔ idx < cap) := by
  refine ⟨?_, ?_, ?_, ?_, ?_⟩
  · rintro ⟨j, hj, hz⟩
    obtain ⟨h1, h2, h3⟩ := accountsScan_terminates f cap 0 j (Nat.zero_le j) (by omega) hz
    exact ⟨h1, h2, fun k hk => lt_of_le_of_lt (h3 k hk) hj⟩
  · intro h
    simpa using accountsScan_reads_past_end f cap 0 (fun k _ hk => h k (by omega))
  · rintro ⟨j, hj, hz⟩
    obtain ⟨h1, h2⟩ :=
      accountsGetByPhone_terminates f p phone cap 0 j (Nat.zero_le j) (by omega) hz
    exact ⟨h1, fun k hk => lt_of_le_of_lt (h2 k hk) hj⟩
  · intro h
    simpa using accountsGetByPhone_reads_past_end f p phone cap 0 (fun k _ hk => h k (by omega))
  · intro base elemSize idx
    by_cases h : cap ≤ idx
    all_goals simp [accounts_getByIndex, h, Except.isOk, Except.toBool]
    all_goals omega

/-- An account array with `subRosaID` nonzero in slots 0 and 1 and zero from
slot 2 on. -/
def exampleSubRosaID : Nat → Int := fun i => if i < 2 then 1 else 0

/-- Witness for C10 at capacity 4: with a zero-`subRosaID` slot at index 2,
all three scans terminate within the array; with `subRosaID` identically 1
and no phone match, both read traces reach slot 3 = capacity of a
3-capacity array. -/
theorem accounts_unbounded_scan_contract_witness :
    ((accounts_getCountAux exampleSubRosaID 0 4).isSome = true ∧
      (accounts_getAllAux exampleSubRosaID 0 4).isSome = true ∧
      ∀ k ∈ accounts_scanReads exampleSubRosaID 0 4, k < 4) ∧
    3 ∈ accounts_scanReads (fun _ => (1 : Int)) 0 4 ∧
    ((accounts_getByPhoneAux exampleSubRosaID (fun _ => 9) 9 0 4).isSome = true ∧
      ∀ k ∈ accounts_getByPhoneReads exampleSubRosaID (fun _ => 9) 9 0 4, k < 4) ∧
    3 ∈ accounts_getByPhoneReads (fun _ => (1 : Int)) (fun _ => (1 : Int)) 9 0 4 :=
  ⟨(accounts_unbounded_scan_contract exampleSubRosaID (fun _ => 9) 9 4).1
      ⟨2, by decide, by decide⟩,
    (accounts_unbounded_scan_contract (fun _ => (1 : Int)) (fun _ => (1 : Int)) 9 3).2.1
      (fun _ _ => by decide),
    (accounts_unbounded_scan_contract exampleSubRosaID (fun _ => 9) 9 4).2.2.1
      ⟨2, by decide, Or.inl (by decide)⟩,
    (accounts_unbounded_scan_contract (fun _ => (1 : Int)) (fun _ => (1 : Int)) 9 3).2.2.2.1
      (fun _ _ => by decide)⟩
